import Mathlib

/-!
# Analogy-Engine: verification of the response-parsing and ontology-validation pipeline

This file is a shallow embedding, in Lean 4, of the core of the
Analogy-Engine repository: the Triple-Layer ontology alignment checker
(`core/ontology.py`), the Scout label normalization and response parsing
(`agents/scout.py`), the Matcher and Critic response parsing
(`agents/matcher.py`, `agents/critic.py`), the Architect JSON candidate
extraction (`agents/architect.py`), the pipeline driver's refinement loop
(`app.py`, `run_pipeline`), and the JSON-file Librarian
(`agents/librarian.py`).

Embedding conventions:
* Python strings are Lean `String`s, manipulated through their `List Char`
  data; Python's ASCII case conversion is modelled exactly, non-ASCII
  letters are left unchanged (theorems that rely on casing carry an
  explicit ASCII hypothesis).
* Python floats are modelled as `ℚ`; the numeric comparisons appearing in
  the code (`confidence < 0.8`, pydantic's `ge=0.0, le=1.0`) are exact on
  the values the pipeline produces.
* `json.loads` is modelled by an executable strict JSON parser over a
  `Json` inductive; Python's non-standard extensions (`NaN`, `Infinity`)
  are outside the model.
* Fallible Python code (paths that can raise) returns `Except PyErr _`;
  code that cannot raise returns plain values.
-/

/-! ## Python string primitives -/

/-- Python's whitespace set for `str.strip` / `\s` on ASCII text:
space, tab, newline, carriage return, vertical tab, form feed. -/
def pyIsSpace (c : Char) : Bool :=
  c = ' ' ∨ c = '\t' ∨ c = '\n' ∨ c = '\r' ∨ c = Char.ofNat 11 ∨ c = Char.ofNat 12

/-- Python `str.strip()` on a character list: drop whitespace from both ends. -/
def pyStripL (l : List Char) : List Char :=
  ((l.dropWhile pyIsSpace).reverse.dropWhile pyIsSpace).reverse

/-- Python `str.strip()` on a `String`. -/
def pyStrip (s : String) : String :=
  ⟨pyStripL s.data⟩

/-- Does `pat` occur at the head of `l`? (`l.take pat.length = pat`). -/
def listStartsWith (pat l : List Char) : Bool :=
  match pat, l with
  | [], _ => true
  | _ :: _, [] => false
  | p :: ps, c :: cs => p = c && listStartsWith ps cs

/-- Index of the first occurrence of `pat` in `l`, if any
(Python `str.find` / the `in` operator). -/
def findSubL (pat l : List Char) : Option Nat :=
  match l with
  | [] => if pat = [] then some 0 else none
  | _ :: cs =>
    if listStartsWith pat l then some 0
    else (findSubL pat cs).map (· + 1)

/-- Python's `pat in s` substring test. -/
def containsSub (pat s : String) : Bool :=
  (findSubL pat.data s.data).isSome

/-! ## ASCII case conversion (Python `str.upper` / `str.lower` on ASCII)

Modelled by an explicit table of the 26 upper/lower pairs; characters
outside the table are returned unchanged. -/

/-- The ASCII (upper, lower) letter pairs. -/
def asciiCasePairs : List (Char × Char) :=
  [('A', 'a'), ('B', 'b'), ('C', 'c'), ('D', 'd'), ('E', 'e'), ('F', 'f'),
   ('G', 'g'), ('H', 'h'), ('I', 'i'), ('J', 'j'), ('K', 'k'), ('L', 'l'),
   ('M', 'm'), ('N', 'n'), ('O', 'o'), ('P', 'p'), ('Q', 'q'), ('R', 'r'),
   ('S', 's'), ('T', 't'), ('U', 'u'), ('V', 'v'), ('W', 'w'), ('X', 'x'),
   ('Y', 'y'), ('Z', 'z')]

/-- ASCII lower-casing of one character (Python `str.lower` restricted to ASCII). -/
def pyToLower (c : Char) : Char :=
  ((asciiCasePairs.find? (·.1 = c)).map (·.2)).getD c

/-- ASCII upper-casing of one character (Python `str.upper` restricted to ASCII). -/
def pyToUpper (c : Char) : Char :=
  ((asciiCasePairs.find? (·.2 = c)).map (·.1)).getD c

/-! ## Scout label normalization (`Scout._to_pascal_case`) -/

/-- A separator for `_to_pascal_case`: the class `[_\s]` of the
`re.sub(r"[_\s]+", " ", ...)` call. -/
def pascalSep (c : Char) : Bool :=
  c = '_' ∨ pyIsSpace c

/-- Split a character list into its maximal runs of non-separator
characters.  This is the net effect of `re.sub(r"[_\s]+", " ", s).split()`:
separator runs are collapsed and empty parts discarded. -/
def pascalWords (l : List Char) : List (List Char) :=
  match l with
  | [] => []
  | c :: cs =>
    if pascalSep c then pascalWords cs
    else
      match pascalWords cs with
      | [] => [[c]]
      | w :: ws =>
        match cs with
        | [] => [[c]]
        | c2 :: _ => if pascalSep c2 then [c] :: w :: ws else (c :: w) :: ws

/-- Python `p[:1].upper() + p[1:].lower()` on one word. -/
def pyCapitalizeWord (w : List Char) : List Char :=
  match w with
  | [] => []
  | c :: cs => pyToUpper c :: cs.map pyToLower

/-- `Scout._to_pascal_case` (src/agents/scout.py:125-138): empty or
whitespace-only labels are returned unchanged; otherwise the label is split
on `[_\s]+` runs and each part is capitalized (first character upper-cased,
the rest lower-cased) and the parts concatenated. -/
def toPascalCase (s : String) : String :=
  if s.data = [] ∨ pyStripL s.data = [] then s
  else ⟨(pascalWords (pyStripL s.data)).map pyCapitalizeWord |>.flatten⟩

/-! ## Triple-Layer ontology: data model (`core/schema.py`) -/

/-- `LogicNode` (src/core/schema.py:19-32).  `node_type` is a string;
pydantic's `Literal` restricts it to `STRUCTURE`/`FUNCTION`/`ATTRIBUTE` at
validation time, which the validation model below enforces.  The open
`properties` bag is not used by any verified operation and is omitted. -/
structure LogicNode where
  id : String
  label : String
  node_type : String := "STRUCTURE"
  deriving Repr, DecidableEq

/-- `LogicEdge` (src/core/schema.py:35-45). -/
structure LogicEdge where
  source : String
  target : String
  relation : String
  deriving Repr, DecidableEq

/-- `LogicalPropertyGraph` (src/core/schema.py:48-56). -/
structure LogicalPropertyGraph where
  nodes : List LogicNode := []
  edges : List LogicEdge := []
  deriving Repr, DecidableEq

/-- `NodeMatch` (src/core/schema.py:59-76). -/
structure NodeMatch where
  source_id : String
  target_id : String
  reasoning : String
  source_ontology : Option String := none
  target_ontology : Option String := none
  deriving Repr, DecidableEq

/-- `AnalogyMapping` (src/core/schema.py:79-98).  `score` is a float with
pydantic bounds `ge=0.0, le=1.0`, modelled as `ℚ`; the bound is enforced by
the validation model, not by this carrier type.  The open `properties` bag
is carried as raw JSON by the parsing model and omitted here. -/
structure AnalogyMapping where
  graph_a_id : String
  graph_b_id : String
  node_matches : List NodeMatch := []
  edge_mappings : List (String × String) := []
  score : ℚ := 0
  explanation : String := ""
  deriving Repr, DecidableEq

/-- `ValidatedHypothesis` (src/core/schema.py:101-113).  `fallback` mirrors
the `properties={"fallback": True}` marker the Critic attaches to its
fallback value (the full `properties` bag is otherwise unused here). -/
structure ValidatedHypothesis where
  mapping : AnalogyMapping
  is_consistent : Bool
  issues : List String := []
  confidence : ℚ := 0
  fallback : Bool := false
  deriving Repr, DecidableEq

/-! ## Ontology alignment checker (`core/ontology.py`) -/

/-- The valid node types (`VALID_NODE_TYPES`, src/core/ontology.py:82). -/
def VALID_NODE_TYPES : List String :=
  ["STRUCTURE", "FUNCTION", "ATTRIBUTE"]

/-- Lookup in the dict `{n.id: n for n in nodes}` built by
`check_ontology_alignment`: a Python dict comprehension keeps the LAST
binding of a duplicated key, so lookup returns the last node carrying the
id. -/
def nodesDictGet (nodes : List LogicNode) (key : String) : Option LogicNode :=
  nodes.foldl (fun acc n => if n.id = key then some n else acc) none

/-- The issue string appended for one categorical mismatch
(src/core/ontology.py:112-115). -/
def mismatchIssue (na nb : LogicNode) (m : NodeMatch) : String :=
  "Categorical mismatch: [" ++ na.node_type ++ "] (source) mapped to [" ++
    nb.node_type ++ "] (target) for source_id=" ++ m.source_id ++
    ", target_id=" ++ m.target_id ++ "."

/-- The body of the `for match in mapping.node_matches` loop: fold over the
matches, appending one issue per resolvable categorically-mismatched match
(src/core/ontology.py:106-115). -/
def alignmentIssues (m : AnalogyMapping) (graph_a graph_b : LogicalPropertyGraph) :
    List String :=
  m.node_matches.foldl
    (fun issues mt =>
      match nodesDictGet graph_a.nodes mt.source_id,
            nodesDictGet graph_b.nodes mt.target_id with
      | some na, some nb =>
        if na.node_type ≠ nb.node_type then issues ++ [mismatchIssue na nb mt]
        else issues
      | _, _ => issues)
    []

/-- `check_ontology_alignment` on well-typed arguments
(src/core/ontology.py:103-116): returns `(ok, issues)` with
`ok = issues.isEmpty`. -/
def check_ontology_alignment (m : AnalogyMapping)
    (graph_a graph_b : LogicalPropertyGraph) : Bool × List String :=
  let issues := alignmentIssues m graph_a graph_b
  (issues.isEmpty, issues)

/-- A dynamically-typed Python value as seen by
`check_ontology_alignment`'s `isinstance` guard: either an
`AnalogyMapping`, a `LogicalPropertyGraph`, or any other runtime value
(identified only by a descriptive tag). -/
inductive PyDyn where
  | mapping (m : AnalogyMapping)
  | graph (g : LogicalPropertyGraph)
  | other (tag : String)
  deriving Repr, DecidableEq

/-- `check_ontology_alignment` including the `isinstance` guard
(src/core/ontology.py:97-102): any wrong-typed argument yields
`(False, ["Invalid input types for ontology alignment check."])` without
touching the arguments further. -/
def check_ontology_alignment_dyn (m a b : PyDyn) : Bool × List String :=
  match m, a, b with
  | .mapping m, .graph ga, .graph gb => check_ontology_alignment m ga gb
  | _, _, _ => (false, ["Invalid input types for ontology alignment check."])

/-! ## JSON values and a model of `json.loads`

`Json` merges Python's `int` and `float` into one exact `ℚ`-valued numeric
constructor; Python's non-standard `NaN`/`Infinity` literals are outside
the model.  Object literals keep their key/value pairs in source order;
lookup is last-wins, matching the Python dict built by `json.loads` on
duplicate keys. -/

inductive Json where
  | null
  | bool (b : Bool)
  | num (q : ℚ)
  | str (s : String)
  | arr (xs : List Json)
  | obj (kvs : List (String × Json))

/-- Python dict assignment `d[k] = v`: an existing key keeps its position
and gets the new value, a new key is appended. -/
def dictInsert (kvs : List (String × Json)) (k : String) (v : Json) :
    List (String × Json) :=
  if kvs.any (·.1 = k) then kvs.map (fun kv => if kv.1 = k then (k, v) else kv)
  else kvs ++ [(k, v)]

/-- Python `dict.get` on a decoded JSON object: last binding wins (the
parser already collapses duplicates via `dictInsert`, making keys unique). -/
def jsonObjGet (kvs : List (String × Json)) (k : String) : Option Json :=
  kvs.foldl (fun acc kv => if kv.1 = k then some kv.2 else acc) none

/-- Python `dict.get(k, default)`. -/
def jsonObjGetD (kvs : List (String × Json)) (k : String) (d : Json) : Json :=
  (jsonObjGet kvs k).getD d

/-- Is a key present (Python `k in obj`)? -/
def jsonObjHas (kvs : List (String × Json)) (k : String) : Bool :=
  (jsonObjGet kvs k).isSome

/-- JSON whitespace (RFC 8259, what `json.loads` skips between tokens). -/
def jsonWs (c : Char) : Bool :=
  c = ' ' ∨ c = '\t' ∨ c = '\n' ∨ c = '\r'

/-- Numeric value of a list of decimal digits. -/
def digitsToNat (l : List Char) : Nat :=
  l.foldl (fun a c => a * 10 + (c.toNat - 48)) 0

/-- Value of one hex digit. -/
def hexVal (c : Char) : Option Nat :=
  if c.isDigit then some (c.toNat - 48)
  else if 'a' ≤ c ∧ c ≤ 'f' then some (c.toNat - 87)
  else if 'A' ≤ c ∧ c ≤ 'F' then some (c.toNat - 55)
  else none

/-- Body of a JSON string literal, after the opening quote.  `fuel` bounds
the recursion; callers pass the remaining input length.  Strict mode:
unescaped control characters are rejected, escapes are the RFC 8259 set.
`\uXXXX` outside the surrogate range maps to the corresponding character;
surrogate pairs are combined; lone surrogates (which Python would keep) are
not representable in a Lean `Char` and are rejected by the model. -/
def parseJsonStringAux : Nat → List Char → List Char → Option (String × List Char)
  | 0, _, _ => none
  | _ + 1, _, [] => none
  | fuel + 1, acc, c :: cs =>
    if c = '"' then some (⟨acc.reverse⟩, cs)
    else if c = '\\' then
      match cs with
      | [] => none
      | e :: cs2 =>
        if e = '"' then parseJsonStringAux fuel ('"' :: acc) cs2
        else if e = '\\' then parseJsonStringAux fuel ('\\' :: acc) cs2
        else if e = '/' then parseJsonStringAux fuel ('/' :: acc) cs2
        else if e = 'b' then parseJsonStringAux fuel (Char.ofNat 8 :: acc) cs2
        else if e = 'f' then parseJsonStringAux fuel (Char.ofNat 12 :: acc) cs2
        else if e = 'n' then parseJsonStringAux fuel ('\n' :: acc) cs2
        else if e = 'r' then parseJsonStringAux fuel ('\r' :: acc) cs2
        else if e = 't' then parseJsonStringAux fuel ('\t' :: acc) cs2
        else if e = 'u' then
          match cs2 with
          | h1 :: h2 :: h3 :: h4 :: cs3 =>
            match hexVal h1, hexVal h2, hexVal h3, hexVal h4 with
            | some a, some b, some c3, some d =>
              let n := ((a * 16 + b) * 16 + c3) * 16 + d
              if n < 0xd800 ∨ 0xe000 ≤ n then
                parseJsonStringAux fuel (Char.ofNat n :: acc) cs3
              else if n < 0xdc00 then
                -- high surrogate: require an immediately following low one
                match cs3 with
                | '\\' :: 'u' :: g1 :: g2 :: g3 :: g4 :: cs4 =>
                  match hexVal g1, hexVal g2, hexVal g3, hexVal g4 with
                  | some a2, some b2, some c2, some d2 =>
                    let m := ((a2 * 16 + b2) * 16 + c2) * 16 + d2
                    if 0xdc00 ≤ m ∧ m < 0xe000 then
                      let cp := 0x10000 + (n - 0xd800) * 0x400 + (m - 0xdc00)
                      parseJsonStringAux fuel (Char.ofNat cp :: acc) cs4
                    else none
                  | _, _, _, _ => none
                | _ => none
              else none
            | _, _, _, _ => none
          | _ => none
        else none
    else if c.toNat < 32 then none
    else parseJsonStringAux fuel (c :: acc) cs

/-- The exact rational value `(-1 if neg) * ip.fd * 10^e` of a decimal
literal with integer digits `ip`, fractional digits `fd` and exponent `e`,
built with a single core `mkRat` (and `Int`/`Nat` arithmetic only) so that
concrete inputs evaluate definitionally. -/
def ratOfDecimal (neg : Bool) (ip fd : List Char) (e : Int) : ℚ :=
  let mant : Int := ((digitsToNat ip * 10 ^ fd.length + digitsToNat fd : Nat) : Int)
  let mant : Int := if neg then -mant else mant
  if 0 ≤ e then mkRat (mant * ((10 ^ e.toNat : Nat) : Int)) (10 ^ fd.length)
  else mkRat mant (10 ^ fd.length * 10 ^ e.natAbs)

/-- JSON integer part: `0` or a non-zero digit followed by digits; returns
the digit run and the remainder. -/
def parseJsonIntPart (l : List Char) : Option (List Char × List Char) :=
  match l with
  | [] => none
  | c :: _ =>
    if ¬ c.isDigit then none
    else
      let ip := l.takeWhile Char.isDigit
      let rest := l.dropWhile Char.isDigit
      if 1 < ip.length ∧ ip.head? = some '0' then none
      else some (ip, rest)

/-- JSON number (RFC 8259 grammar), value computed exactly in `ℚ`. -/
def parseJsonNumber (l : List Char) : Option (ℚ × List Char) :=
  let (neg, l1) := match l with | '-' :: r => (true, r) | _ => (false, l)
  match parseJsonIntPart l1 with
  | none => none
  | some (ip, l2) =>
    let fracStep : Option (List Char × List Char) :=
      match l2 with
      | '.' :: r =>
        let ds := r.takeWhile Char.isDigit
        if ds = [] then none
        else some (ds, r.dropWhile Char.isDigit)
      | _ => some ([], l2)
    match fracStep with
    | none => none
    | some (fd, l3) =>
      let expStep : Option (Int × List Char) :=
        match l3 with
        | 'e' :: r | 'E' :: r =>
          let (eneg, r1) := match r with
            | '-' :: r2 => (true, r2)
            | '+' :: r2 => (false, r2)
            | _ => (false, r)
          let ds := r1.takeWhile Char.isDigit
          if ds = [] then none
          else some ((if eneg then -(digitsToNat ds : Int) else (digitsToNat ds : Int)),
                     r1.dropWhile Char.isDigit)
        | _ => some (0, l3)
      match expStep with
      | none => none
      | some (e, l4) => some (ratOfDecimal neg ip fd e, l4)

/-- The job of one step of the `json.loads` recursion: parse one value,
or continue a partially-parsed array or object.  A single structurally
recursive function (rather than mutual definitions) so that concrete
inputs evaluate definitionally. -/
inductive JsonJob where
  | value
  | arrLoop (acc : List Json)
  | objLoop (acc : List (String × Json))

/-- The recursive core of `json.loads`: `.value` parses one JSON value;
`.arrLoop`/`.objLoop` parse the remaining comma-separated items of an
array/object whose head has been consumed. -/
def parseJsonGo : Nat → JsonJob → List Char → Option (Json × List Char)
  | 0, _, _ => none
  | fuel + 1, .value, l =>
    match l.dropWhile jsonWs with
    | 'n' :: 'u' :: 'l' :: 'l' :: rest => some (.null, rest)
    | 't' :: 'r' :: 'u' :: 'e' :: rest => some (.bool true, rest)
    | 'f' :: 'a' :: 'l' :: 's' :: 'e' :: rest => some (.bool false, rest)
    | '"' :: rest =>
      (parseJsonStringAux (rest.length + 1) [] rest).map (fun p => (.str p.1, p.2))
    | '[' :: rest =>
      (match rest.dropWhile jsonWs with
       | ']' :: r2 => some (.arr [], r2)
       | r => parseJsonGo fuel (.arrLoop []) r)
    | '\x7b' :: rest =>
      (match rest.dropWhile jsonWs with
       | '\x7d' :: r2 => some (.obj [], r2)
       | r => parseJsonGo fuel (.objLoop []) r)
    | rest => (parseJsonNumber rest).map (fun p => (.num p.1, p.2))
  | fuel + 1, .arrLoop acc, l =>
    match parseJsonGo fuel .value l with
    | none => none
    | some (v, r) =>
      match r.dropWhile jsonWs with
      | ',' :: r2 => parseJsonGo fuel (.arrLoop (v :: acc)) r2
      | ']' :: r2 => some (.arr (v :: acc).reverse, r2)
      | _ => none
  | fuel + 1, .objLoop acc, l =>
    match l.dropWhile jsonWs with
    | '"' :: r =>
      (match parseJsonStringAux (r.length + 1) [] r with
       | none => none
       | some (k, r1) =>
         match r1.dropWhile jsonWs with
         | ':' :: r2 =>
           (match parseJsonGo fuel .value r2 with
            | none => none
            | some (v, r3) =>
              match r3.dropWhile jsonWs with
              | ',' :: r4 => parseJsonGo fuel (.objLoop (dictInsert acc k v)) r4
              | '\x7d' :: r4 => some (.obj (dictInsert acc k v), r4)
              | _ => none)
         | _ => none)
    | _ => none


/-- Model of Python `json.loads`: parse one JSON value, then require only
whitespace to follow.  The fuel `8 * length + 16` dominates the number of
recursive calls any input of that length can cause. -/
def jsonLoads (s : String) : Option Json :=
  match parseJsonGo (8 * s.data.length + 16) .value s.data with
  | some (v, rest) => if rest.dropWhile jsonWs = [] then some v else none
  | none => none

/-! ## Python runtime value helpers -/

/-- A Python exception escaping a parser. -/
inductive PyErr where
  | typeError (msg : String)
  | valueError (msg : String)
  | validationError (msg : String)
  deriving Repr, DecidableEq

/-- Python truthiness (`bool(x)`) of a decoded JSON value; never raises. -/
def pyTruthy : Json → Bool
  | .null => false
  | .bool b => b
  | .num q => q ≠ 0
  | .str s => s ≠ ""
  | .arr xs => ¬ xs.isEmpty
  | .obj kvs => ¬ kvs.isEmpty

/-- Decimal rendering of a rational whose denominator divides a power of
ten (every numeric literal decoded from JSON has this form).  Used only to
model `str()` of numbers; the int/float distinction Python would make is
merged, a documented approximation of the embedding. -/
def ratPyRepr (q : ℚ) : String :=
  if q.den = 1 then toString q.num
  else
    match (List.range 60).find? (fun k => q.den ∣ 10 ^ (k + 1)) with
    | some k =>
      let k := k + 1
      let n : Int := q.num * ((10 ^ k : Nat) : Int) / (q.den : Int)
      let absN := n.natAbs
      let ipart := absN / 10 ^ k
      let fpartDigits := toString (absN % 10 ^ k)
      let pad := String.mk (List.replicate (k - fpartDigits.length) '0')
      (if q.num < 0 then "-" else "") ++ toString ipart ++ "." ++ pad ++ fpartDigits
    | none => toString q.num ++ "/" ++ toString q.den

/-- Python `repr()` of a decoded JSON value (as used inside containers by
`str()`); string escaping inside `repr` is not modelled. -/
def pyRepr : Json → String
  | .null => "None"
  | .bool b => if b then "True" else "False"
  | .num q => ratPyRepr q
  | .str s => "'" ++ s ++ "'"
  | .arr xs =>
    "[" ++ String.intercalate ", " (xs.attach.map fun x => pyRepr x.1) ++ "]"
  | .obj kvs =>
    "\x7b" ++
      String.intercalate ", "
        (kvs.attach.map fun kv => "'" ++ kv.1.1 ++ "': " ++ pyRepr kv.1.2) ++
      "\x7d"
decreasing_by
  · have h1 := List.sizeOf_lt_of_mem x.2
    have h2 : sizeOf (Json.arr xs) = 1 + sizeOf xs := by simp
    omega
  · obtain ⟨⟨a, b⟩, hm⟩ := kv
    have h1 := List.sizeOf_lt_of_mem hm
    have h2 : sizeOf ((a, b) : String × Json) = 1 + sizeOf a + sizeOf b := by simp
    have h3 : sizeOf (Json.obj kvs) = 1 + sizeOf kvs := by simp
    simp only []
    omega

/-- Python `str()` of a decoded JSON value: a string is returned verbatim,
anything else via `repr`. -/
def pyStrTop (j : Json) : String :=
  match j with
  | .str s => s
  | other => pyRepr other

/-- Python `float(s)` on a string: optional surrounding whitespace and
sign, then digits with an optional fractional part (at least one digit over
the two) and an optional exponent.  `inf`/`nan` and PEP 515 underscores are
outside the model. -/
def pyFloatOfString (s : String) : Option ℚ :=
  let l := pyStripL s.data
  let (neg, l1) := match l with
    | '-' :: r => (true, r)
    | '+' :: r => (false, r)
    | _ => (false, l)
  let d1 := l1.takeWhile Char.isDigit
  let r1 := l1.dropWhile Char.isDigit
  let (fd, r2) := match r1 with
    | '.' :: t => (t.takeWhile Char.isDigit, t.dropWhile Char.isDigit)
    | _ => ([], r1)
  if d1 = [] ∧ fd = [] then none
  else
    let expStep : Option (Int × List Char) :=
      match r2 with
      | 'e' :: t | 'E' :: t =>
        let (eneg, t1) := match t with
          | '-' :: t2 => (true, t2)
          | '+' :: t2 => (false, t2)
          | _ => (false, t)
        let ds := t1.takeWhile Char.isDigit
        if ds = [] then none
        else some ((if eneg then -(digitsToNat ds : Int) else (digitsToNat ds : Int)),
                   t1.dropWhile Char.isDigit)
      | _ => some (0, r2)
    match expStep with
    | none => none
    | some (e, r3) =>
      if r3 = [] then some (ratOfDecimal neg d1 fd e) else none

/-- Python `float(x)` on a decoded JSON value: numbers pass through, bools
become 0/1, numeric strings are parsed, everything else raises. -/
def pyFloatJson : Json → Except PyErr ℚ
  | .num q => .ok q
  | .bool b => .ok (if b then 1 else 0)
  | .str s =>
    match pyFloatOfString s with
    | some q => .ok q
    | none => .error (.valueError "could not convert string to float")
  | .null => .error (.typeError "float() argument must not be NoneType")
  | .arr _ => .error (.typeError "float() argument must not be a list")
  | .obj _ => .error (.typeError "float() argument must not be a dict")

/-! ## Markdown fence stripping and JSON candidate extraction

Each agent's parser reduces the raw LLM response to the string it hands to
`json.loads` (its "JSON candidate").  The functions below model the exact
`re.sub` calls of each agent:

* Matcher and Critic (with `re.DOTALL`):
  `re.sub(r"^.*?```json\s*", "", c, flags=re.DOTALL)` removes everything up
  to and including the first occurrence of ```` ```json ```` and the
  whitespace run following it (the `^` anchor admits no second match);
  `re.sub(r"\s*```.*$", "", c, flags=re.DOTALL)` truncates the text at the
  whitespace run preceding the first occurrence of ```` ``` ````.
* Scout (same patterns, but without `re.DOTALL`): the opening pattern only
  matches when ```` ```json ```` occurs in the first line; the closing
  pattern only matches an occurrence of ```` ``` ```` after which the text
  contains no newline other than a final one (and that final newline
  survives the substitution, since `$` matches just before it).
* Architect: `re.sub(r"```json\s*", "", c, flags=re.DOTALL)` removes every
  occurrence of ```` ```json ```` plus trailing whitespace, and
  `re.sub(r"```", "", c)` removes every remaining ```` ``` ````; a
  balanced-brace scan then extracts the candidate object.
-/

/-- `re.sub(r"^.*?```json\s*", "", s, flags=re.DOTALL)`. -/
def stripOpenFenceDotall (s : String) : String :=
  match findSubL "```json".data s.data with
  | some i => ⟨(s.data.drop (i + 7)).dropWhile pyIsSpace⟩
  | none => s

/-- `re.sub(r"\s*```.*$", "", s, flags=re.DOTALL)`. -/
def stripCloseFenceDotall (s : String) : String :=
  match findSubL "```".data s.data with
  | some i => ⟨((s.data.take i).reverse.dropWhile pyIsSpace).reverse⟩
  | none => s

/-- `re.sub(r"^.*?```json\s*", "", s)` (no DOTALL): `.` does not cross the
first newline, so the match exists only if ```` ```json ```` starts within
the first line; `\s*` still consumes newlines. -/
def stripOpenFenceNoDotall (s : String) : String :=
  match findSubL "```json".data (s.data.takeWhile (· ≠ '\n')) with
  | some i => ⟨(s.data.drop (i + 7)).dropWhile pyIsSpace⟩
  | none => s

/-- Scan for the first occurrence of ```` ``` ```` whose tail contains no
newline except possibly a single final one; returns its index and whether
that final newline exists (it is then excluded from the match). -/
def findCloseFenceNoDotall : List Char → Option (Nat × Bool)
  | [] => none
  | l@(_ :: t) =>
    if listStartsWith "```".data l then
      let tail := l.drop 3
      if tail.count '\n' = 0 then some (0, false)
      else if tail.count '\n' = 1 ∧ tail.getLast? = some '\n' then some (0, true)
      else (findCloseFenceNoDotall t).map (fun p => (p.1 + 1, p.2))
    else (findCloseFenceNoDotall t).map (fun p => (p.1 + 1, p.2))

/-- `re.sub(r"\s*```.*$", "", s)` (no DOTALL). -/
def stripCloseFenceNoDotall (s : String) : String :=
  match findCloseFenceNoDotall s.data with
  | none => s
  | some (i, keepNl) =>
    let pre := ((s.data.take i).reverse.dropWhile pyIsSpace).reverse
    ⟨if keepNl then pre ++ ['\n'] else pre⟩

/-- The string `Matcher._parse_mapping_response`
(src/agents/matcher.py:175-201) passes to `json.loads`; `none` when the
parser returns its fallback before reaching `json.loads`. -/
def matcherCandidate (content : String) : Option String :=
  let c1 := pyStrip content
  if c1 = "" then none
  else
    let c2 := if containsSub "```json" c1 then stripOpenFenceDotall c1 else c1
    let c3 := if containsSub "```" c2 then stripCloseFenceDotall c2 else c2
    let c4 := pyStrip c3
    if c4 = "" then none else some c4

/-- The string `Critic._parse_response` (src/agents/critic.py:134-159)
passes to `json.loads`; `none` when the parser returns its fallback before
reaching `json.loads`. -/
def criticCandidate (content : String) : Option String :=
  let c1 := pyStrip content
  if c1 = "" then none
  else
    let c2 := if containsSub "```json" c1 then stripOpenFenceDotall c1 else c1
    let c3 := if containsSub "```" c2 then stripCloseFenceDotall c2 else c2
    let c4 := pyStrip c3
    if c4 = "" then none else some c4

/-- The string `Scout._parse_graph_response` (src/agents/scout.py:153-163)
passes to `json.loads`; `none` when the parser returns the empty graph
before reaching `json.loads`.  Unlike Matcher/Critic, Scout's `re.sub`
calls lack `flags=re.DOTALL`. -/
def scoutCandidate (content : String) : Option String :=
  let c1 := pyStrip content
  let c2 := if containsSub "```json" c1 then stripOpenFenceNoDotall c1 else c1
  let c3 := if containsSub "```" c2 then stripCloseFenceNoDotall c2 else c2
  let c4 := pyStrip c3
  if c4 = "" then none else some c4

/-- `re.sub(r"```json\s*", "", s, flags=re.DOTALL)`: remove every
occurrence of ```` ```json ```` together with the whitespace run following
it (left-to-right, non-overlapping). -/
def removeAllOpenFences : Nat → List Char → List Char
  | 0, l => l
  | fuel + 1, l =>
    if listStartsWith "```json".data l then
      removeAllOpenFences fuel ((l.drop 7).dropWhile pyIsSpace)
    else
      match l with
      | [] => []
      | c :: cs => c :: removeAllOpenFences fuel cs

/-- `re.sub(r"```", "", s)`: delete every occurrence of ```` ``` ````. -/
def removeAllTicks : Nat → List Char → List Char
  | 0, l => l
  | fuel + 1, l =>
    if listStartsWith "```".data l then removeAllTicks fuel (l.drop 3)
    else
      match l with
      | [] => []
      | c :: cs => c :: removeAllTicks fuel cs

/-- The balanced-brace scan of `Architect._parse_response`
(src/agents/architect.py:188-218), run on the text starting at the first
brace: returns the length of the candidate up to and including the closing
brace at depth zero, or `none` when the scan reaches the end of the text
(the caller then takes the whole remainder).  Tracks string-literal state
for both quote characters with backslash-escape awareness. -/
def braceScanAux : List Char → Nat → Bool → Bool → Char → Nat → Option Nat
  | [], _, _, _, _, _ => none
  | c :: cs, depth, inString, escape, quoteChar, consumed =>
    if escape then braceScanAux cs depth inString false quoteChar (consumed + 1)
    else if inString ∧ c = '\\' then
      braceScanAux cs depth inString true quoteChar (consumed + 1)
    else if ¬ inString then
      if c = '\x7b' then braceScanAux cs (depth + 1) inString false quoteChar (consumed + 1)
      else if c = '\x7d' then
        if depth = 1 then some (consumed + 1)
        else braceScanAux cs (depth - 1) inString false quoteChar (consumed + 1)
      else if c = '\'' ∨ c = '"' then braceScanAux cs depth true false c (consumed + 1)
      else braceScanAux cs depth inString false quoteChar (consumed + 1)
    else if c = quoteChar then braceScanAux cs depth false false quoteChar (consumed + 1)
    else braceScanAux cs depth inString false quoteChar (consumed + 1)

/-- The smart-quote / non-breaking-space normalization of
`Architect._parse_response` (src/agents/architect.py:221-227). -/
def normalizeLLMQuirks (l : List Char) : List Char :=
  l.map fun c =>
    if c = Char.ofNat 0x2018 ∨ c = Char.ofNat 0x2019 then '\''
    else if c = Char.ofNat 0x201c ∨ c = Char.ofNat 0x201d then '"'
    else if c = Char.ofNat 0xa0 then ' '
    else c

/-- The string `Architect._parse_response` (src/agents/architect.py:175-230)
passes to `json.loads`; `none` when the parser returns its fallback report
before reaching `json.loads` (empty response or no brace found). -/
def architectCandidate (content : String) : Option String :=
  let c1 := pyStrip content
  if c1 = "" then none
  else
    let cleaned := removeAllTicks (c1.data.length + 1)
      (removeAllOpenFences (c1.data.length + 1) c1.data)
    let cleaned := pyStripL cleaned
    match findSubL "\x7b".data cleaned with
    | none => none
    | some start =>
      let fromBrace := cleaned.drop start
      let jsonStr :=
        match braceScanAux fromBrace 0 false false ' ' 0 with
        | some n => fromBrace.take n
        | none => fromBrace
      some ⟨normalizeLLMQuirks jsonStr⟩

/-! ## Pydantic validation models

Success/failure of the pydantic constructions the parsers perform,
modelled on lax (default) V2 coercion for exactly the cases that can
arise from decoded JSON: string fields accept only strings, float fields
accept numbers and numeric strings (never bools), `Literal` fields accept
only their listed values, list/tuple fields accept only lists of valid
elements, `properties` accepts only objects. -/

/-- Validate one element of `LogicalPropertyGraph.nodes` as a `LogicNode`. -/
def validateLogicNode (j : Json) : Option LogicNode :=
  match j with
  | .obj kvs =>
    match jsonObjGet kvs "id", jsonObjGet kvs "label" with
    | some (.str i), some (.str lb) =>
      let nt : Option String :=
        match jsonObjGet kvs "node_type" with
        | none => some "STRUCTURE"
        | some (.str t) => if t ∈ VALID_NODE_TYPES then some t else none
        | some _ => none
      let propsOk : Bool :=
        match jsonObjGet kvs "properties" with
        | none => true
        | some (.obj _) => true
        | some _ => false
      match nt with
      | some t => if propsOk then some ⟨i, lb, t⟩ else none
      | none => none
    | _, _ => none
  | _ => none

/-- Validate one element of `LogicalPropertyGraph.edges` as a `LogicEdge`. -/
def validateLogicEdge (j : Json) : Option LogicEdge :=
  match j with
  | .obj kvs =>
    match jsonObjGet kvs "source", jsonObjGet kvs "target",
          jsonObjGet kvs "relation" with
    | some (.str s), some (.str t), some (.str r) =>
      let propsOk : Bool :=
        match jsonObjGet kvs "properties" with
        | none => true
        | some (.obj _) => true
        | some _ => false
      if propsOk then some ⟨s, t, r⟩ else none
    | _, _, _ => none
  | _ => none

/-- `LogicalPropertyGraph(**obj)` (src/agents/scout.py:175): pydantic V2
keyword construction with the default `extra='ignore'`, so unknown keys
are ignored; both fields default to `[]`; list fields must be lists of
valid elements.  `none` covers the `ValidationError`/`TypeError` pair the
caller catches together. -/
def modelValidateGraphKw (kvs : List (String × Json)) :
    Option LogicalPropertyGraph :=
  let nodes : Option (List LogicNode) :=
    match jsonObjGet kvs "nodes" with
    | none => some []
    | some (.arr l) => l.mapM validateLogicNode
    | some _ => none
  let edges : Option (List LogicEdge) :=
    match jsonObjGet kvs "edges" with
    | none => some []
    | some (.arr l) => l.mapM validateLogicEdge
    | some _ => none
  match nodes, edges with
  | some ns, some es => some ⟨ns, es⟩
  | _, _ => none

/-- Validate one element of `AnalogyMapping.node_matches` as a `NodeMatch`. -/
def validateNodeMatch (j : Json) : Option NodeMatch :=
  match j with
  | .obj kvs =>
    match jsonObjGet kvs "source_id", jsonObjGet kvs "target_id",
          jsonObjGet kvs "reasoning" with
    | some (.str s), some (.str t), some (.str r) =>
      let ont : Json → Option (Option String) := fun v =>
        match v with
        | .null => some none
        | .str o => some (some o)
        | _ => none
      let so := match jsonObjGet kvs "source_ontology" with
        | none => some none
        | some v => ont v
      let to_ := match jsonObjGet kvs "target_ontology" with
        | none => some none
        | some v => ont v
      match so, to_ with
      | some so, some to_ => some ⟨s, t, r, so, to_⟩
      | _, _ => none
    | _, _, _ => none
  | _ => none

/-- A pydantic float field with `ge=0.0, le=1.0`: numbers and numeric
strings in range validate, everything else fails. -/
def validateScore01 (j : Json) : Option ℚ :=
  match j with
  | .num q => if 0 ≤ q ∧ q ≤ 1 then some q else none
  | .str s =>
    match pyFloatOfString s with
    | some q => if 0 ≤ q ∧ q ≤ 1 then some q else none
    | none => none
  | _ => none

/-- `AnalogyMapping.model_validate(obj)` (src/agents/matcher.py:224):
required string ids, optional typed fields with their schema defaults,
unknown keys ignored. -/
def modelValidateMapping (kvs : List (String × Json)) : Option AnalogyMapping :=
  match jsonObjGet kvs "graph_a_id", jsonObjGet kvs "graph_b_id" with
  | some (.str ga), some (.str gb) =>
    let nms : Option (List NodeMatch) :=
      match jsonObjGet kvs "node_matches" with
      | none => some []
      | some (.arr l) => l.mapM validateNodeMatch
      | some _ => none
    let edges : Option (List (String × String)) :=
      match jsonObjGet kvs "edge_mappings" with
      | none => some []
      | some (.arr l) =>
        l.mapM fun x =>
          match x with
          | .arr [.str a, .str b] => some (a, b)
          | _ => none
      | some _ => none
    let score : Option ℚ :=
      match jsonObjGet kvs "score" with
      | none => some 0
      | some v => validateScore01 v
    let expl : Option String :=
      match jsonObjGet kvs "explanation" with
      | none => some ""
      | some (.str e) => some e
      | some _ => none
    let propsOk : Bool :=
      match jsonObjGet kvs "properties" with
      | none => true
      | some (.obj _) => true
      | some _ => false
    match nms, edges, score, expl with
    | some ms, some es, some sc, some ex =>
      if propsOk then some ⟨ga, gb, ms, es, sc, ex⟩ else none
    | _, _, _, _ => none
  | _, _ => none

/-! ## Scout response parsing (`Scout._parse_graph_response`) -/

/-- Python `for _ in x`: the element sequence of a decoded JSON value, or
`none` when iteration raises `TypeError` (numbers, bools, `None`).
Iterating a string yields its characters, iterating a dict its keys. -/
def pyIter (j : Json) : Option (List Json) :=
  match j with
  | .arr l => some l
  | .str s => some (s.data.map fun c => .str ⟨[c]⟩)
  | .obj kvs => some (kvs.map fun kv => .str kv.1)
  | .null | .bool _ | .num _ => none

/-- The in-place normalization applied to each element of `obj["nodes"]`
(src/agents/scout.py:167-173): on dict elements, rewrite `label` (if
present) to PascalCase of its `str()`, and force `node_type` to
`"STRUCTURE"` unless it is one of the three valid labels; non-dict
elements are left alone. -/
def scoutNormalizeNode (j : Json) : Json :=
  match j with
  | .obj kvs =>
    let kvs1 :=
      match jsonObjGet kvs "label" with
      | some lv => dictInsert kvs "label" (.str (toPascalCase (pyStrTop lv)))
      | none => kvs
    let ntValid : Bool :=
      match jsonObjGet kvs1 "node_type" with
      | some (.str t) => t ∈ VALID_NODE_TYPES
      | _ => false
    if ntValid then .obj kvs1
    else .obj (dictInsert kvs1 "node_type" (.str "STRUCTURE"))
  | other => other

/-- `Scout._parse_graph_response` (src/agents/scout.py:140-178).  Returns
`Except` because the `for node in obj.get("nodes", [])` loop raises an
uncaught `TypeError` when the decoded `nodes` value is not iterable; every
other failure path degrades to the empty graph. -/
def scoutParseGraphResponse (content : String) :
    Except PyErr LogicalPropertyGraph :=
  match scoutCandidate content with
  | none => .ok ⟨[], []⟩
  | some cand =>
    match jsonLoads cand with
    | none => .ok ⟨[], []⟩
    | some (.obj kvs) =>
      if jsonObjHas kvs "nodes" ∨ jsonObjHas kvs "edges" then
        let nodesVal := jsonObjGetD kvs "nodes" (.arr [])
        match pyIter nodesVal with
        | none => .error (.typeError "object is not iterable")
        | some _ =>
          let kvs1 :=
            match nodesVal with
            | .arr l =>
              if jsonObjHas kvs "nodes" then
                dictInsert kvs "nodes" (.arr (l.map scoutNormalizeNode))
              else kvs
            | _ => kvs
          match modelValidateGraphKw kvs1 with
          | some g => .ok g
          | none => .ok ⟨[], []⟩
      else .ok ⟨[], []⟩
    | some _ => .ok ⟨[], []⟩

/-! ## Matcher response parsing (`Matcher._parse_mapping_response`) -/

/-- The Matcher's fallback mapping (src/agents/matcher.py:178-185). -/
def matcherFallback (id_a id_b : String) : AnalogyMapping :=
  { graph_a_id := id_a, graph_b_id := id_b, node_matches := [],
    edge_mappings := [], score := 0,
    explanation := "Failed to parse Matcher response." }

/-- The `edge_mappings` sanitizer (src/agents/matcher.py:214-221): when
the key holds a list in which some element is not a two-element sequence
of strings, the whole list is replaced by `[]`. -/
def sanitizeEdgeMappings (kvs : List (String × Json)) : List (String × Json) :=
  match jsonObjGet kvs "edge_mappings" with
  | some (.arr l) =>
    let valid := l.all fun x =>
      match x with
      | .arr [.str _, .str _] => true
      | _ => false
    if valid then kvs else dictInsert kvs "edge_mappings" (.arr [])
  | _ => kvs

/-- `Matcher._parse_mapping_response` (src/agents/matcher.py:173-228):
total — every failure path returns the fallback mapping. -/
def matcherParseMappingResponse (content id_a id_b : String) : AnalogyMapping :=
  match matcherCandidate content with
  | none => matcherFallback id_a id_b
  | some cand =>
    match jsonLoads cand with
    | none => matcherFallback id_a id_b
    | some (.obj kvs) =>
      let kvs1 := if jsonObjHas kvs "graph_a_id" then kvs
        else dictInsert kvs "graph_a_id" (.str id_a)
      let kvs2 := if jsonObjHas kvs1 "graph_b_id" then kvs1
        else dictInsert kvs1 "graph_b_id" (.str id_b)
      let kvs3 := sanitizeEdgeMappings kvs2
      match modelValidateMapping kvs3 with
      | some m => m
      | none => matcherFallback id_a id_b
    | some _ => matcherFallback id_a id_b

/-! ## Critic response parsing (`Critic._parse_response`) -/

/-- The Critic's fallback hypothesis (src/agents/critic.py:137-143). -/
def criticFallback (mapping : AnalogyMapping) : ValidatedHypothesis :=
  { mapping := mapping, is_consistent := true,
    issues := ["Critic failed to parse or validate response."],
    confidence := 0, fallback := true }

/-- The issue string appended by the Critic's programmatic reinforcement
loop (src/agents/critic.py:186-189). -/
def criticMismatchIssue (i : Nat) (src tgt : String) (m : NodeMatch) : String :=
  "Categorical mismatch: [" ++ src ++ "] (source) mapped to [" ++ tgt ++
    "] (target) for match " ++ toString i ++ " (source_id=" ++ m.source_id ++
    ", target_id=" ++ m.target_id ++ ")."

/-- The programmatic reinforcement over `mapping.node_matches`
(src/agents/critic.py:180-189): any match with both ontology annotations
present and different flips `is_consistent` to `false` and appends an
issue. -/
def criticReinforce (mapping : AnalogyMapping) (isConsistent : Bool)
    (issues : List String) : Bool × List String :=
  mapping.node_matches.enum.foldl
    (fun acc p =>
      match p.2.source_ontology, p.2.target_ontology with
      | some src, some tgt =>
        if src ≠ tgt then (false, acc.2 ++ [criticMismatchIssue p.1 src tgt p.2])
        else acc
      | _, _ => acc)
    (isConsistent, issues)

/-- `Critic._parse_response` (src/agents/critic.py:132-197).  Returns
`Except` because the final `ValidatedHypothesis(...)` construction sits
outside the `try` block: a decoded `confidence` outside `[0, 1]` makes
pydantic raise an uncaught `ValidationError`.  All other failure paths
return the fallback hypothesis. -/
def criticParseResponse (content : String) (mapping : AnalogyMapping) :
    Except PyErr ValidatedHypothesis :=
  match criticCandidate content with
  | none => .ok (criticFallback mapping)
  | some cand =>
    match jsonLoads cand with
    | none => .ok (criticFallback mapping)
    | some (.obj kvs) =>
      let isConsistent := pyTruthy (jsonObjGetD kvs "is_consistent" (.bool true))
      let issuesRaw := jsonObjGetD kvs "issues" (.arr [])
      let issues :=
        match issuesRaw with
        | .arr l => l.map pyStrTop
        | other => [pyStrTop other]
      match pyFloatJson (jsonObjGetD kvs "confidence" (.num 0)) with
      | .error _ => .ok (criticFallback mapping)
      | .ok confidence =>
        let (isConsistent2, issues2) := criticReinforce mapping isConsistent issues
        if 0 ≤ confidence ∧ confidence ≤ 1 then
          .ok { mapping := mapping, is_consistent := isConsistent2,
                issues := issues2, confidence := confidence, fallback := false }
        else .error (.validationError "confidence must be between 0 and 1")
    | some _ => .ok (criticFallback mapping)

/-! ## Pipeline driver and refinement loop (`app.py`, `run_pipeline`)

The Scout outputs and the LLM-backed Matcher/Critic calls are the
pipeline's external collaborators; they are abstracted as an oracle.  The
driver logic itself — the ontology gate, the refine condition and the
single refinement pass (src/app.py:455-521) — is translated directly, and
instrumented with an event trace recording which agent is invoked on which
value. -/

/-- Oracle for the LLM-backed stages: the first Matcher result, the Critic
as a function of the mapping it is asked to judge, and the refinement
Matcher result as a function of the previous mapping and the critic
feedback fed back to it (src/app.py:484-497). -/
structure PipelineLLM where
  matcherFirst : AnalogyMapping
  criticOf : AnalogyMapping → ValidatedHypothesis
  matcherRefine : AnalogyMapping → ValidatedHypothesis → AnalogyMapping

/-- One observable agent invocation of the driver. -/
inductive PipeEvent where
  | matcherCall (refined : Bool) (result : AnalogyMapping)
  | criticCall (mapping : AnalogyMapping)
  | architectCall (hypothesis : ValidatedHypothesis)
  deriving Repr, DecidableEq

/-- The ontology gate (duplicated in the source at src/app.py:465-474 and
498-509): run `check_ontology_alignment`; on failure synthesize the
hypothesis directly (consistency `false`, confidence `0`, issues = the
alignment issues) without invoking the Critic; on success invoke the
Critic.  Returns the hypothesis and the trace of this step. -/
def ontologyGate (llm : PipelineLLM) (mapping : AnalogyMapping)
    (graph_a graph_b : LogicalPropertyGraph) :
    ValidatedHypothesis × List PipeEvent :=
  let res := check_ontology_alignment mapping graph_a graph_b
  if res.1 = false then
    ({ mapping := mapping, is_consistent := false, issues := res.2,
       confidence := 0 }, [])
  else (llm.criticOf mapping, [.criticCall mapping])

/-- The Matching → OntologyGate → Critiquing → (refine?) core of
`run_pipeline` (src/app.py:455-521), from the two Scout graphs onward,
returning the final hypothesis handed to the Architect together with the
full event trace.  The refine condition is
`(not hypothesis.is_consistent) or (hypothesis.confidence < 0.8)`. -/
def run_pipeline (graph_a graph_b : LogicalPropertyGraph) (llm : PipelineLLM) :
    ValidatedHypothesis × List PipeEvent :=
  let mapping := llm.matcherFirst
  let (hypothesis, ev1) := ontologyGate llm mapping graph_a graph_b
  let (final_hypothesis, ev2) :=
    if hypothesis.is_consistent = false ∨ hypothesis.confidence < mkRat 4 5 then
      let refined_mapping := llm.matcherRefine mapping hypothesis
      let (fh, evGate) := ontologyGate llm refined_mapping graph_a graph_b
      (fh, PipeEvent.matcherCall true refined_mapping :: evGate)
    else (hypothesis, [])
  (final_hypothesis,
    PipeEvent.matcherCall false mapping :: ev1 ++ ev2 ++
      [.architectCall final_hypothesis])

/-! ## Librarian (`agents/librarian.py`, the JSON-file implementation)

The memory file is modelled at the decoded level: a list of entries, each
either a valid `(report, metadata)` document or a malformed one (which
`get_all_reports` skips).  `store_report` appends; file I/O and JSON
serialization round-tripping are outside the model. -/

/-- `ActionPlan` (src/core/schema.py:116-138). -/
structure ActionPlan where
  transferable_mechanisms : List String := []
  technical_roadmap : List String := []
  key_metrics_to_track : List String := []
  potential_pitfalls : List String := []
  deriving Repr, DecidableEq

/-- `ResearchReport` (src/core/schema.py:141-164); the open `properties`
bag is omitted. -/
structure ResearchReport where
  hypothesis : ValidatedHypothesis
  summary : String := ""
  findings : List String := []
  recommendation : String := ""
  action_plan : ActionPlan := {}
  sources : List String := []
  input_query : String := ""
  deriving Repr, DecidableEq

/-- `MemoryMetadata` (src/core/schema.py:167-178); `stored_at` is a
timestamp, modelled by a rational whose ordering is chronological. -/
structure MemoryMetadata where
  stored_at : ℚ
  frequency : Nat := 0
  deriving Repr, DecidableEq

/-- One entry of the decoded memory file: a well-formed
`{report, metadata}` document, or a malformed entry (wrong shape or
failing model validation), which the read path skips. -/
inductive LibEntry where
  | valid (report : ResearchReport) (metadata : MemoryMetadata)
  | malformed (tag : String)
  deriving Repr, DecidableEq

/-- `Librarian.store_report` (src/agents/librarian.py:57-75): append a new
`{report, metadata}` document with `stored_at = now` and `frequency = 0`
to the end of the file. -/
def store_report (entries : List LibEntry) (report : ResearchReport)
    (now : ℚ) : List LibEntry :=
  entries ++ [.valid report { stored_at := now, frequency := 0 }]

/-- `Librarian.get_all_reports` (src/agents/librarian.py:77-99): traverse
the decoded entries in file order, keeping the `(report, metadata)` pairs
of the well-formed ones. -/
def get_all_reports (entries : List LibEntry) :
    List (ResearchReport × MemoryMetadata) :=
  entries.filterMap fun e =>
    match e with
    | .valid r m => some (r, m)
    | .malformed _ => none

/-- Decidable equality for `Except` results (needed to `decide` concrete
parser evaluations). -/
instance {e a : Type} [DecidableEq e] [DecidableEq a] : DecidableEq (Except e a) := fun x y =>
  match x, y with
  | .ok v, .ok w => if h : v = w then isTrue (by rw [h]) else isFalse (by simp [h])
  | .error v, .error w => if h : v = w then isTrue (by rw [h]) else isFalse (by simp [h])
  | .ok _, .error _ => isFalse (by simp)
  | .error _, .ok _ => isFalse (by simp)

/-! ## Concrete sample values used by witnesses -/

/-- The sample source graph of the ontology unit tests
(src/tests/test_ontology.py:21-28). -/
def sampleGraphA : LogicalPropertyGraph :=
  { nodes := [⟨"a1", "Neuron", "STRUCTURE"⟩, ⟨"a2", "Spike", "FUNCTION"⟩,
              ⟨"a3", "Latency", "ATTRIBUTE"⟩],
    edges := [] }

/-- The sample target graph of the ontology unit tests
(src/tests/test_ontology.py:29-36). -/
def sampleGraphB : LogicalPropertyGraph :=
  { nodes := [⟨"b1", "Server", "STRUCTURE"⟩, ⟨"b2", "Packet", "FUNCTION"⟩,
              ⟨"b3", "Throughput", "ATTRIBUTE"⟩],
    edges := [] }

/-- A mapping matching `a1` (STRUCTURE) to `b2` (FUNCTION): one
categorical mismatch. -/
def sampleMismatchMapping : AnalogyMapping :=
  { graph_a_id := "ga", graph_b_id := "gb",
    node_matches := [⟨"a1", "b2", "wrong", none, none⟩],
    score := mkRat 1 2, explanation := "One mismatch." }

/-- An aligned mapping (`a2` FUNCTION to `b2` FUNCTION). -/
def sampleAlignedMapping : AnalogyMapping :=
  { graph_a_id := "ga", graph_b_id := "gb",
    node_matches := [⟨"a2", "b2", "ok", none, none⟩],
    score := mkRat 9 10, explanation := "Aligned." }

/-- A pipeline oracle whose first Matcher result is the mismatched
mapping, whose refinement result is the aligned mapping, and whose Critic
always answers consistent with confidence 0.9. -/
def sampleLLM : PipelineLLM :=
  { matcherFirst := sampleMismatchMapping,
    criticOf := fun m =>
      { mapping := m, is_consistent := true, issues := [], confidence := mkRat 9 10 },
    matcherRefine := fun _ _ => sampleAlignedMapping }

/-- A minimal stored report. -/
def sampleReport1 : ResearchReport :=
  { hypothesis := { mapping := matcherFallback "a" "b", is_consistent := true },
    summary := "first report" }

/-- A second stored report, stored later than the first. -/
def sampleReport2 : ResearchReport :=
  { hypothesis := { mapping := matcherFallback "a" "b", is_consistent := true },
    summary := "second report" }

/-- An oracle whose first Matcher result is already aligned. -/
def sampleLLM2 : PipelineLLM :=
  { matcherFirst := sampleAlignedMapping,
    criticOf := fun m =>
      { mapping := m, is_consistent := true, issues := [], confidence := mkRat 9 10 },
    matcherRefine := fun _ _ => sampleAlignedMapping }

/-- An oracle whose refinement result is still the mismatched mapping. -/
def sampleLLMBad : PipelineLLM :=
  { matcherFirst := sampleMismatchMapping,
    criticOf := fun m =>
      { mapping := m, is_consistent := true, issues := [], confidence := mkRat 9 10 },
    matcherRefine := fun _ _ => sampleMismatchMapping }

/-! # Theorems -/

/-! ## C10: wrong-typed inputs to the alignment checker fail closed -/

/-- C10: for every argument triple in which the mapping is not an
`AnalogyMapping` or either graph is not a `LogicalPropertyGraph`,
`check_ontology_alignment` returns `ok = false` with exactly the single
issue string reporting invalid input types (and, being a total function of
the embedding, does not raise). -/
theorem check_ontology_alignment_dyn_fails_closed (m a b : PyDyn)
    (h : ¬ ∃ (mm : AnalogyMapping) (ga gb : LogicalPropertyGraph),
      m = .mapping mm ∧ a = .graph ga ∧ b = .graph gb) :
    check_ontology_alignment_dyn m a b =
      (false, ["Invalid input types for ontology alignment check."]) := by
  cases m <;> cases a <;> cases b <;> try rfl
  exact absurd ⟨_, _, _, rfl, rfl, rfl⟩ h

/-- Witness for C10: a string in the mapping position is rejected with the
single invalid-input issue. -/
theorem check_ontology_alignment_dyn_fails_closed_witness :
    check_ontology_alignment_dyn (.other "a string") (.graph sampleGraphA)
      (.graph sampleGraphB) =
      (false, ["Invalid input types for ontology alignment check."]) :=
  check_ontology_alignment_dyn_fails_closed _ _ _
    (by rintro ⟨mm, ga, gb, hm, -, -⟩; exact nomatch hm)

/-! ## C9: the JSON-file Librarian lists pairs in insertion order -/

/-- C9 (failing evaluation): after storing two reports at times 1 and 2,
`get_all_reports` returns `(report, metadata)` PAIRS (no document id) with
the OLDEST entry first — not the `(report, metadata, id)` triples sorted
newest-first that the spec, the unit tests
(src/tests/test_librarian.py:92-118) and the caller
(src/app.py:570, src/app.py:613) expect; the `delete_report` those
callers use does not exist on this class at all. -/
theorem get_all_reports_insertion_order :
    get_all_reports (store_report (store_report [] sampleReport1 1) sampleReport2 2) =
      [(sampleReport1, { stored_at := 1, frequency := 0 }),
       (sampleReport2, { stored_at := 2, frequency := 0 })] ∧
    (1 : ℚ) < 2 := by
  exact ⟨rfl, by norm_num⟩

/-! ## C4: the response parsers are not exception-free -/

/-- C4 (failing evaluation): two raw LLM responses on which a parser
raises.  The Critic's final `ValidatedHypothesis(...)` construction sits
outside its `try` block, so a decoded `confidence` of `2.0` raises
pydantic's `ValidationError` out of `Critic._parse_response`; Scout's
`for node in obj.get("nodes", [])` loop raises `TypeError` out of
`Scout._parse_graph_response` when `nodes` decodes to a number. -/
theorem parsers_raise_on_inputs :
    criticParseResponse "\x7b\"is_consistent\": true, \"issues\": [], \"confidence\": 2.0\x7d"
        (matcherFallback "ga" "gb") =
      .error (.validationError "confidence must be between 0 and 1") ∧
    scoutParseGraphResponse "\x7b\"nodes\": 5\x7d" =
      .error (.typeError "object is not iterable") := by
  constructor <;> decide

/-! ## C7: the Critic's empty-response fallback -/

/-- C7: on an empty or whitespace-only LLM response, `Critic._parse_response`
returns, for every input mapping, the fallback hypothesis:
`is_consistent = true`, confidence exactly `0`, exactly one
fallback-marker issue string (and the `fallback` properties marker). -/
theorem criticParse_empty_fallback (content : String) (mapping : AnalogyMapping)
    (h : ∀ c ∈ content.data, pyIsSpace c) :
    criticParseResponse content mapping =
      .ok { mapping := mapping, is_consistent := true,
            issues := ["Critic failed to parse or validate response."],
            confidence := 0, fallback := true } := by
  have h1 : content.data.dropWhile pyIsSpace = [] := by
    rw [List.dropWhile_eq_nil_iff]
    intro x hx
    exact h x hx
  have hstrip : pyStrip content = "" := by
    unfold pyStrip pyStripL
    rw [h1]
    rfl
  unfold criticParseResponse criticCandidate
  rw [hstrip]
  rfl

/-- Witness for C7: the empty response and a whitespace-only response both
produce the fallback hypothesis. -/
theorem criticParse_empty_fallback_witness :
    criticParseResponse "" sampleMismatchMapping =
      .ok { mapping := sampleMismatchMapping, is_consistent := true,
            issues := ["Critic failed to parse or validate response."],
            confidence := 0, fallback := true } ∧
    criticParseResponse " \n\t" sampleMismatchMapping =
      .ok { mapping := sampleMismatchMapping, is_consistent := true,
            issues := ["Critic failed to parse or validate response."],
            confidence := 0, fallback := true } :=
  ⟨criticParse_empty_fallback "" sampleMismatchMapping (by decide),
   criticParse_empty_fallback " \n\t" sampleMismatchMapping (by decide)⟩

/-! ## C5: the four agents do NOT share one extraction algorithm -/

/-- C5 (counterexample): the JSON candidate handed to `json.loads` differs
between agents.  On `'\x7b"a": 1\x7d x'` the Architect's balanced-brace scan
extracts the object while the Matcher passes the whole text; on a fenced
block preceded by a prose line, Scout's non-DOTALL fence stripping leaves
the preamble and opening fence in place while the Matcher removes them. -/
theorem extraction_divergence_counterexample :
    architectCandidate "\x7b\"a\": 1\x7d x" ≠ matcherCandidate "\x7b\"a\": 1\x7d x" ∧
    scoutCandidate "Here:\n```json\n\x7b\"a\":1\x7d\n```" ≠
      matcherCandidate "Here:\n```json\n\x7b\"a\":1\x7d\n```" ∧
    architectCandidate "\x7b\"a\": 1\x7d x" = some "\x7b\"a\": 1\x7d" ∧
    matcherCandidate "\x7b\"a\": 1\x7d x" = some "\x7b\"a\": 1\x7d x" ∧
    scoutCandidate "Here:\n```json\n\x7b\"a\":1\x7d\n```" =
      some "Here:\n```json\n\x7b\"a\":1\x7d" ∧
    matcherCandidate "Here:\n```json\n\x7b\"a\":1\x7d\n```" =
      some "\x7b\"a\":1\x7d" := by
  refine ⟨by decide, by decide, rfl, rfl, rfl, rfl⟩

/-- C5 (amended): only Matcher and Critic share the extraction algorithm —
their parsers compute the identical JSON candidate on every input; Scout's
and the Architect's computations differ from it (witnessed by the
counterexample above). -/
theorem matcher_critic_same_candidate :
    ∀ content : String, matcherCandidate content = criticCandidate content :=
  fun _ => rfl

/-! ## C6: malformed `edge_mappings` lists are cleared wholesale -/

/-- Replacing the bindings of key `k` does not affect lookups of another
key `k2`. -/
theorem foldlGet_map_ne (k : String) (v : Json) (k2 : String) (h : k ≠ k2) :
    ∀ (l : List (String × Json)) (acc : Option Json),
      (l.map fun kv => if kv.1 = k then (k, v) else kv).foldl
          (fun acc kv => if kv.1 = k2 then some kv.2 else acc) acc =
        l.foldl (fun acc kv => if kv.1 = k2 then some kv.2 else acc) acc := by
  intro l
  induction l with
  | nil => intro acc; rfl
  | cons kv t ih =>
    intro acc
    simp only [List.map_cons, List.foldl_cons]
    rw [ih]
    by_cases hk : kv.1 = k
    · simp [hk, h, Ne.symm h]
    · simp [hk]

/-- After replacing the bindings of key `k` by `v`, looking up `k` yields
`some v` as soon as some binding of `k` was present. -/
theorem foldlGet_map_self (k : String) (v : Json) :
    ∀ (l : List (String × Json)) (acc : Option Json),
      (l.map fun kv => if kv.1 = k then (k, v) else kv).foldl
          (fun acc kv => if kv.1 = k then some kv.2 else acc) acc =
        if l.any (·.1 = k) then some v else acc := by
  intro l
  induction l with
  | nil => intro acc; simp
  | cons kv t ih =>
    intro acc
    simp only [List.map_cons, List.foldl_cons, List.any_cons]
    rw [ih]
    by_cases hk : kv.1 = k
    · simp [hk]
    · simp only [if_neg hk, decide_eq_false hk, Bool.false_or]

/-- `dictInsert` leaves lookups of other keys unchanged. -/
theorem jsonObjGet_dictInsert_ne (kvs : List (String × Json)) (k : String)
    (v : Json) (k2 : String) (h : k ≠ k2) :
    jsonObjGet (dictInsert kvs k v) k2 = jsonObjGet kvs k2 := by
  unfold dictInsert jsonObjGet
  split
  · exact foldlGet_map_ne k v k2 h kvs none
  · rw [List.foldl_append]
    simp [h]

/-- `dictInsert` makes the inserted binding visible. -/
theorem jsonObjGet_dictInsert_self (kvs : List (String × Json)) (k : String)
    (v : Json) :
    jsonObjGet (dictInsert kvs k v) k = some v := by
  unfold dictInsert jsonObjGet
  split
  · rename_i hany
    rw [foldlGet_map_self k v kvs none]
    simp only [hany, if_true]
  · rw [List.foldl_append]
    simp

/-- If validation succeeds on an object whose `edge_mappings` key holds the
empty list, the resulting mapping's `edge_mappings` is empty. -/
theorem modelValidateMapping_edge_empty (kvs : List (String × Json))
    (h : jsonObjGet kvs "edge_mappings" = some (.arr []))
    (m : AnalogyMapping) (hm : modelValidateMapping kvs = some m) :
    m.edge_mappings = [] := by
  unfold modelValidateMapping at hm
  rw [h] at hm
  simp only [List.mapM_nil, Option.pure_def] at hm
  split at hm <;> try (exact Option.noConfusion hm)
  split at hm <;> try (exact Option.noConfusion hm)
  split at hm
  · cases hm
    simp_all
  · exact Option.noConfusion hm

/-- C6: whenever the Matcher's decoded response object carries an
`edge_mappings` list in which some element fails the two-element-string-pair
check, the parsed `AnalogyMapping` has `edge_mappings = []`: the sanitizer
replaces the whole list by `[]` before construction (and the fallback
mapping returned on any later validation failure also carries `[]`). -/
theorem matcherParse_edge_mappings_cleared
    (content id_a id_b cand : String) (kvs : List (String × Json)) (l : List Json)
    (hcand : matcherCandidate content = some cand)
    (hload : jsonLoads cand = some (.obj kvs))
    (hbadlist : jsonObjGet kvs "edge_mappings" = some (.arr l))
    (hbad : (l.all fun x =>
      match x with
      | .arr [.str _, .str _] => true
      | _ => false) = false) :
    (matcherParseMappingResponse content id_a id_b).edge_mappings = [] := by
  simp only [matcherParseMappingResponse, hcand, hload]
  have hne1 : "graph_a_id" ≠ "edge_mappings" := by decide
  have hne2 : "graph_b_id" ≠ "edge_mappings" := by decide
  set kvs1 := if jsonObjHas kvs "graph_a_id" then kvs
    else dictInsert kvs "graph_a_id" (.str id_a) with hkvs1
  have h1 : jsonObjGet kvs1 "edge_mappings" = some (.arr l) := by
    rw [hkvs1]
    split
    · exact hbadlist
    · rw [jsonObjGet_dictInsert_ne _ _ _ _ hne1]
      exact hbadlist
  set kvs2 := if jsonObjHas kvs1 "graph_b_id" then kvs1
    else dictInsert kvs1 "graph_b_id" (.str id_b) with hkvs2
  have h2 : jsonObjGet kvs2 "edge_mappings" = some (.arr l) := by
    rw [hkvs2]
    split
    · exact h1
    · rw [jsonObjGet_dictInsert_ne _ _ _ _ hne2]
      exact h1
  have h3 : sanitizeEdgeMappings kvs2 = dictInsert kvs2 "edge_mappings" (.arr []) := by
    unfold sanitizeEdgeMappings
    simp only [h2]
    rw [hbad]
    simp
  rw [h3]
  have h4 : jsonObjGet (dictInsert kvs2 "edge_mappings" (.arr [])) "edge_mappings" =
      some (.arr []) := jsonObjGet_dictInsert_self _ _ _
  cases hv : modelValidateMapping (dictInsert kvs2 "edge_mappings" (.arr [])) with
  | none => rfl
  | some m => exact modelValidateMapping_edge_empty _ h4 m hv

set_option maxRecDepth 4000 in
/-- Witness for C6: the spec's scenario — a raw Matcher response carrying
`"edge_mappings": [\x7b"invalid": true\x7d]` parses to a mapping with empty
`edge_mappings`. -/
theorem matcherParse_edge_mappings_cleared_witness :
    (matcherParseMappingResponse
      "\x7b\"graph_a_id\": \"ga\", \"graph_b_id\": \"gb\", \"node_matches\": [], \"edge_mappings\": [\x7b\"invalid\": true\x7d], \"score\": 0.7, \"explanation\": \"test\"\x7d"
      "graph_a" "graph_b").edge_mappings = [] :=
  matcherParse_edge_mappings_cleared _ "graph_a" "graph_b"
    "\x7b\"graph_a_id\": \"ga\", \"graph_b_id\": \"gb\", \"node_matches\": [], \"edge_mappings\": [\x7b\"invalid\": true\x7d], \"score\": 0.7, \"explanation\": \"test\"\x7d"
    [("graph_a_id", .str "ga"), ("graph_b_id", .str "gb"),
     ("node_matches", .arr []),
     ("edge_mappings", .arr [.obj [("invalid", .bool true)]]),
     ("score", .num (mkRat 7 10)), ("explanation", .str "test")]
    [.obj [("invalid", .bool true)]]
    (by rfl) (by rfl) (by rfl) (by rfl)

/-! ## C1: exact characterization of the alignment checker -/

/-- Folding an append-one-issue step equals `filterMap`. -/
theorem foldl_append_eq_filterMap {α : Type} (f : α → Option String) :
    ∀ (l : List α) (acc : List String),
      l.foldl
        (fun issues mt =>
          match f mt with
          | some s => issues ++ [s]
          | none => issues) acc =
      acc ++ l.filterMap f := by
  intro l
  induction l with
  | nil => intro acc; simp
  | cons mt t ih =>
    intro acc
    simp only [List.foldl_cons, List.filterMap_cons]
    cases hf : f mt with
    | none => simp [ih]
    | some s => simp [ih]

/-- The per-match issue contribution: one formatted issue when both ids
resolve and the node types differ, nothing otherwise. -/
theorem alignmentIssues_eq_filterMap (m : AnalogyMapping)
    (ga gb : LogicalPropertyGraph) :
    alignmentIssues m ga gb =
      m.node_matches.filterMap (fun mt =>
        match nodesDictGet ga.nodes mt.source_id,
              nodesDictGet gb.nodes mt.target_id with
        | some na, some nb =>
          if na.node_type ≠ nb.node_type then some (mismatchIssue na nb mt)
          else none
        | _, _ => none) := by
  unfold alignmentIssues
  have hfun : (fun (issues : List String) (mt : NodeMatch) =>
      match nodesDictGet ga.nodes mt.source_id,
            nodesDictGet gb.nodes mt.target_id with
      | some na, some nb =>
        if na.node_type ≠ nb.node_type then issues ++ [mismatchIssue na nb mt]
        else issues
      | _, _ => issues) =
    (fun (issues : List String) (mt : NodeMatch) =>
      match (fun mt =>
        match nodesDictGet ga.nodes mt.source_id,
              nodesDictGet gb.nodes mt.target_id with
        | some na, some nb =>
          if na.node_type ≠ nb.node_type then some (mismatchIssue na nb mt)
          else none
        | _, _ => none) mt with
      | some s => issues ++ [s]
      | none => issues) := by
    funext issues mt
    cases hA : nodesDictGet ga.nodes mt.source_id with
    | none => simp [hA]
    | some na =>
      cases hB : nodesDictGet gb.nodes mt.target_id with
      | none => simp [hA, hB]
      | some nb =>
        by_cases hne : na.node_type ≠ nb.node_type
        · simp [hA, hB, hne]
        · simp [hA, hB, hne]
  rw [hfun, foldl_append_eq_filterMap]
  simp

/-- C1: `check_ontology_alignment` returns exactly one issue per node
match whose ids both resolve and whose nodes carry different
`node_type`s (in match order, without short-circuiting — the issue list
is the `filterMap` of the per-match check over all matches); matches with
a dangling id contribute nothing; and `ok = true` iff the issue list is
empty. -/
theorem check_ontology_alignment_characterization (m : AnalogyMapping)
    (ga gb : LogicalPropertyGraph) :
    (check_ontology_alignment m ga gb).2 =
      m.node_matches.filterMap (fun mt =>
        match nodesDictGet ga.nodes mt.source_id,
              nodesDictGet gb.nodes mt.target_id with
        | some na, some nb =>
          if na.node_type ≠ nb.node_type then some (mismatchIssue na nb mt)
          else none
        | _, _ => none) ∧
    ((check_ontology_alignment m ga gb).1 = true ↔
      (check_ontology_alignment m ga gb).2 = []) := by
  constructor
  · exact alignmentIssues_eq_filterMap m ga gb
  · unfold check_ontology_alignment
    simp [List.isEmpty_iff]

/-! ## C8: label normalization is not idempotent -/

/-- C8 (counterexample): a second application of `_to_pascal_case` is not
the identity on first-application results: the already-canonical
`"PascalCase"` becomes `"Pascalcase"` (exactly what the repository's own
unit test `test_already_pascal` asserts), and re-normalizing
`"HelloWorld"` (the normal form of `"hello world"`) yields
`"Helloworld"`. -/
theorem toPascalCase_counterexample :
    toPascalCase "PascalCase" = "Pascalcase" ∧
    "Pascalcase" ≠ "PascalCase" ∧
    toPascalCase "hello world" = "HelloWorld" ∧
    toPascalCase (toPascalCase "hello world") = "Helloworld" ∧
    "Helloworld" ≠ "HelloWorld" := by
  refine ⟨by decide, by decide, by decide, by decide, by decide⟩

/-- Upper-casing an upper-cased character changes nothing. -/
theorem pyToUpper_idem (c : Char) : pyToUpper (pyToUpper c) = pyToUpper c := by
  unfold pyToUpper
  cases hf : asciiCasePairs.find? (·.2 = c) with
  | none => simp [hf]
  | some p =>
    simp only [Option.map, Option.getD]
    have hmem := List.mem_of_find?_eq_some hf
    have hnone : asciiCasePairs.find? (·.2 = p.1) = none := by
      rw [List.find?_eq_none]
      intro q hq
      have : ∀ p ∈ asciiCasePairs, ∀ q ∈ asciiCasePairs, ¬ (q.2 = p.1) := by decide
      simpa using this p hmem q hq
    simp [hnone]

/-- Lower-casing a lower-cased character changes nothing. -/
theorem pyToLower_idem (c : Char) : pyToLower (pyToLower c) = pyToLower c := by
  unfold pyToLower
  cases hf : asciiCasePairs.find? (·.1 = c) with
  | none => simp [hf]
  | some p =>
    simp only [Option.map, Option.getD]
    have hmem := List.mem_of_find?_eq_some hf
    have hnone : asciiCasePairs.find? (·.1 = p.2) = none := by
      rw [List.find?_eq_none]
      intro q hq
      have : ∀ p ∈ asciiCasePairs, ∀ q ∈ asciiCasePairs, ¬ (q.1 = p.2) := by decide
      simpa using this p hmem q hq
    simp [hnone]

/-- Case conversion never produces a separator character. -/
theorem pascalSep_pyToUpper (c : Char) (h : pascalSep c = false) :
    pascalSep (pyToUpper c) = false := by
  unfold pyToUpper
  cases hf : asciiCasePairs.find? (·.2 = c) with
  | none => simpa using h
  | some p =>
    simp only [Option.map, Option.getD]
    have hmem := List.mem_of_find?_eq_some hf
    have : ∀ p ∈ asciiCasePairs, pascalSep p.1 = false ∧ pascalSep p.2 = false := by
      decide
    exact (this p hmem).1

/-- Case conversion never produces a separator character. -/
theorem pascalSep_pyToLower (c : Char) (h : pascalSep c = false) :
    pascalSep (pyToLower c) = false := by
  unfold pyToLower
  cases hf : asciiCasePairs.find? (·.1 = c) with
  | none => simpa using h
  | some p =>
    simp only [Option.map, Option.getD]
    have hmem := List.mem_of_find?_eq_some hf
    have : ∀ p ∈ asciiCasePairs, pascalSep p.1 = false ∧ pascalSep p.2 = false := by
      decide
    exact (this p hmem).2

/-- A list of separators has no words. -/
theorem pascalWords_eq_nil (l : List Char) (h : ∀ c ∈ l, pascalSep c = true) :
    pascalWords l = [] := by
  induction l with
  | nil => rfl
  | cons c cs ih =>
    unfold pascalWords
    rw [h c (by simp)]
    simp only [if_true]
    exact ih (fun c hc => h c (List.mem_cons_of_mem _ hc))

/-- Appending a separator-only suffix does not change the word split. -/
theorem pascalWords_append_sep (suf : List Char)
    (hsuf : ∀ c ∈ suf, pascalSep c = true) :
    ∀ l : List Char, pascalWords (l ++ suf) = pascalWords l := by
  intro l
  induction l with
  | nil =>
    simp only [List.nil_append]
    exact pascalWords_eq_nil suf hsuf
  | cons c cs ih =>
    by_cases hc : pascalSep c = true
    · simp only [List.cons_append]
      unfold pascalWords
      rw [hc]
      simp only [if_true]
      exact ih
    · simp only [List.cons_append]
      unfold pascalWords
      rw [Bool.not_eq_true] at hc
      rw [hc]
      simp only [Bool.false_eq_true, if_false]
      rw [ih]
      cases cs with
      | nil =>
        cases hw : pascalWords suf with
        | nil => rfl
        | cons w ws =>
          rw [pascalWords_eq_nil suf hsuf] at hw
          cases hw
      | cons c2 cs2 => rfl

/-- Unfolding `pascalWords` on a leading separator. -/
theorem pascalWords_cons_of_sep (c : Char) (cs : List Char)
    (h : pascalSep c = true) : pascalWords (c :: cs) = pascalWords cs := by
  conv_lhs => rw [pascalWords.eq_def]
  dsimp only
  rw [h]
  simp

/-- A separator-free singleton is one word. -/
theorem pascalWords_singleton (c : Char) (h : pascalSep c = false) :
    pascalWords [c] = [[c]] := by
  conv_lhs => rw [pascalWords.eq_def]
  dsimp only
  rw [h]
  rfl

/-- A nonempty separator-free list is a single word. -/
theorem pascalWords_single (l : List Char) (hne : l ≠ [])
    (h : ∀ c ∈ l, pascalSep c = false) : pascalWords l = [l] := by
  induction l with
  | nil => cases hne rfl
  | cons c cs ih =>
    cases cs with
    | nil => exact pascalWords_singleton c (h c (by simp))
    | cons c2 cs2 =>
      conv_lhs => rw [pascalWords.eq_def]
      dsimp only
      rw [h c (by simp), ih (by simp) (fun x hx => h x (List.mem_cons_of_mem _ hx))]
      dsimp only
      rw [h c2 (by simp)]
      simp

/-- Dropping leading whitespace does not change the word split. -/
theorem pascalWords_dropWhile (l : List Char) :
    pascalWords (l.dropWhile pyIsSpace) = pascalWords l := by
  induction l with
  | nil => rfl
  | cons c cs ih =>
    by_cases hc : pyIsSpace c = true
    · rw [List.dropWhile_cons_of_pos hc, ih,
        pascalWords_cons_of_sep c cs (by simp [pascalSep, hc])]
    · rw [List.dropWhile_cons_of_neg hc]

/-- Stripping surrounding whitespace does not change the word split. -/
theorem pascalWords_pyStripL (l : List Char) :
    pascalWords (pyStripL l) = pascalWords l := by
  unfold pyStripL
  set m := l.dropWhile pyIsSpace with hm
  have hdecomp : m = (m.reverse.dropWhile pyIsSpace).reverse ++
      (m.reverse.takeWhile pyIsSpace).reverse := by
    conv_lhs => rw [← List.reverse_reverse m]
    rw [← List.reverse_append]
    rw [List.takeWhile_append_dropWhile]
  have hsuf : ∀ c ∈ (m.reverse.takeWhile pyIsSpace).reverse, pascalSep c = true := by
    intro c hc
    rw [List.mem_reverse] at hc
    have := List.mem_takeWhile_imp hc
    unfold pascalSep
    simp [this]
  calc pascalWords (m.reverse.dropWhile pyIsSpace).reverse
      = pascalWords ((m.reverse.dropWhile pyIsSpace).reverse ++
          (m.reverse.takeWhile pyIsSpace).reverse) :=
        (pascalWords_append_sep _ hsuf _).symm
    _ = pascalWords m := by rw [← hdecomp]
    _ = pascalWords l := by rw [hm]; exact pascalWords_dropWhile l

/-- `dropWhile` is the identity when no element satisfies the predicate. -/
theorem dropWhile_eq_self_of {p : Char → Bool} {l : List Char}
    (h : ∀ c ∈ l, p c = false) : l.dropWhile p = l := by
  cases l with
  | nil => rfl
  | cons c cs =>
    exact List.dropWhile_cons_of_neg (by simp [h c (by simp)])

/-- A separator-free character list survives `strip` unchanged. -/
theorem pyStripL_eq_self (l : List Char) (h : ∀ c ∈ l, pascalSep c = false) :
    pyStripL l = l := by
  have hsp : ∀ c ∈ l, pyIsSpace c = false := by
    intro c hc
    have := h c hc
    unfold pascalSep at this
    simp only [decide_eq_false_iff_not, not_or] at this
    simpa using this.2
  unfold pyStripL
  rw [dropWhile_eq_self_of hsp]
  rw [dropWhile_eq_self_of (fun c hc => hsp c (List.mem_reverse.mp hc))]
  exact List.reverse_reverse l

/-- On a nonempty separator-free label, `_to_pascal_case` capitalizes the
single word. -/
theorem toPascalCase_single_word (l : List Char) (hne : l ≠ [])
    (h : ∀ c ∈ l, pascalSep c = false) :
    toPascalCase ⟨l⟩ = ⟨pyCapitalizeWord l⟩ := by
  unfold toPascalCase
  rw [if_neg]
  · simp only []
    rw [pyStripL_eq_self l h, pascalWords_single l hne h]
    simp
  · rw [pyStripL_eq_self l h]
    simp [hne]

/-- C8 (amended): the two halves of the claim that survive on the code.
(1) Separator invariance: two labels with the same word decomposition
(in particular an all-lowercase multi-word label with any extra
whitespace/underscore separators) normalize identically.
(2) Restricted stability: a second application is the identity on labels
whose normal form is a single capitalized word — nonempty, separator-free
ASCII labels (but NOT on multi-word normal forms such as `"HelloWorld"`,
nor on `"PascalCase"`, per the counterexample). -/
theorem toPascalCase_amended :
    (∀ s t : String, pascalWords s.data ≠ [] →
      pascalWords s.data = pascalWords t.data → toPascalCase s = toPascalCase t) ∧
    (∀ s : String, s.data ≠ [] → (∀ c ∈ s.data, pascalSep c = false) →
      (∀ c ∈ s.data, c.toNat < 128) →
      toPascalCase (toPascalCase s) = toPascalCase s) := by
  constructor
  · intro s t hne heq
    have hs1 : ¬ (s.data = [] ∨ pyStripL s.data = []) := by
      rintro (h | h)
      · exact hne (by rw [h]; rfl)
      · exact hne (by rw [← pascalWords_pyStripL s.data, h]; rfl)
    have ht1 : ¬ (t.data = [] ∨ pyStripL t.data = []) := by
      rw [heq] at hne
      rintro (h | h)
      · exact hne (by rw [h]; rfl)
      · exact hne (by rw [← pascalWords_pyStripL t.data, h]; rfl)
    unfold toPascalCase
    rw [if_neg hs1, if_neg ht1]
    rw [pascalWords_pyStripL, pascalWords_pyStripL, heq]
  · intro s hne hsep _hascii
    have h1 : toPascalCase s = ⟨pyCapitalizeWord s.data⟩ :=
      toPascalCase_single_word s.data (by simpa using hne) hsep
    cases hdata : s.data with
    | nil => exact absurd hdata hne
    | cons c cs =>
      rw [h1, hdata]
      have hcap : pyCapitalizeWord (c :: cs) = pyToUpper c :: cs.map pyToLower := rfl
      rw [hcap]
      have hne2 : pyToUpper c :: cs.map pyToLower ≠ [] := by simp
      have hsep2 : ∀ x ∈ pyToUpper c :: cs.map pyToLower, pascalSep x = false := by
        intro x hx
        rcases List.mem_cons.mp hx with hx | hx
        · subst hx
          exact pascalSep_pyToUpper c (hsep c (by rw [hdata]; simp))
        · obtain ⟨y, hy, hxy⟩ := List.mem_map.mp hx
          subst hxy
          exact pascalSep_pyToLower y
            (hsep y (by rw [hdata]; exact List.mem_cons_of_mem _ hy))
      rw [toPascalCase_single_word _ hne2 hsep2]
      have : pyCapitalizeWord (pyToUpper c :: cs.map pyToLower) =
          pyToUpper c :: cs.map pyToLower := by
        unfold pyCapitalizeWord
        dsimp only
        rw [pyToUpper_idem]
        rw [List.map_map]
        have hll : pyToLower ∘ pyToLower = pyToLower := funext pyToLower_idem
        rw [hll]
      rw [this]

/-- Witness for C8 (amended): `"hello  world"` and `"hello_world"`
normalize identically, and the single-word label `"pressure"` is stable
under a second application. -/
theorem toPascalCase_amended_witness :
    toPascalCase "hello  world" = toPascalCase "hello_world" ∧
    toPascalCase (toPascalCase "pressure") = toPascalCase "pressure" :=
  ⟨toPascalCase_amended.1 "hello  world" "hello_world" (by decide) (by decide),
   toPascalCase_amended.2 "pressure" (by decide) (by decide) (by decide)⟩

/-! ## C2 and C3: the refinement loop and the ontology gate -/

/-- The ontology gate takes exactly one of two shapes, fixed by the
alignment check of its mapping: Critic verdict with a `criticCall` event,
or direct synthesis with no event. -/
theorem ontologyGate_cases (llm : PipelineLLM) (m : AnalogyMapping)
    (ga gb : LogicalPropertyGraph) :
    ((check_ontology_alignment m ga gb).1 = true ∧
      ontologyGate llm m ga gb = (llm.criticOf m, [.criticCall m])) ∨
    ((check_ontology_alignment m ga gb).1 = false ∧
      ontologyGate llm m ga gb =
        ({ mapping := m, is_consistent := false,
           issues := (check_ontology_alignment m ga gb).2, confidence := 0 }, [])) := by
  unfold ontologyGate
  by_cases h : (check_ontology_alignment m ga gb).1 = false
  · right
    refine ⟨h, ?_⟩
    rw [if_pos h]
  · left
    rw [Bool.not_eq_false] at h
    refine ⟨h, ?_⟩
    rw [if_neg (by simp [h])]

/-- C2: in every run, the refinement (a second Matcher call fed the
previous mapping and the first hypothesis, followed by a second ontology
gate / Critic check) occurs exactly once when the first hypothesis is
inconsistent or has confidence below 0.8, and not at all otherwise; when
it occurs, the final hypothesis is the second check's result regardless of
its value; and the hypothesis handed to the Architect is that final
hypothesis. -/
theorem run_pipeline_refinement (ga gb : LogicalPropertyGraph)
    (llm : PipelineLLM) :
    ((run_pipeline ga gb llm).2.countP (fun e =>
        match e with
        | .matcherCall true _ => true
        | _ => false) =
      if ((ontologyGate llm llm.matcherFirst ga gb).1.is_consistent = false ∨
          (ontologyGate llm llm.matcherFirst ga gb).1.confidence < mkRat 4 5)
      then 1 else 0) ∧
    ((run_pipeline ga gb llm).1 =
      if ((ontologyGate llm llm.matcherFirst ga gb).1.is_consistent = false ∨
          (ontologyGate llm llm.matcherFirst ga gb).1.confidence < mkRat 4 5)
      then (ontologyGate llm
        (llm.matcherRefine llm.matcherFirst (ontologyGate llm llm.matcherFirst ga gb).1)
        ga gb).1
      else (ontologyGate llm llm.matcherFirst ga gb).1) ∧
    ((run_pipeline ga gb llm).2.getLast? =
      some (.architectCall (run_pipeline ga gb llm).1)) := by
  rcases hG1 : ontologyGate llm llm.matcherFirst ga gb with ⟨h1, ev1⟩
  rcases hG2 : ontologyGate llm (llm.matcherRefine llm.matcherFirst h1) ga gb with ⟨h2, ev2⟩
  have hev1 : ev1 = [] ∨ ev1 = [.criticCall llm.matcherFirst] := by
    rcases ontologyGate_cases llm llm.matcherFirst ga gb with ⟨-, h⟩ | ⟨-, h⟩ <;>
      rw [hG1] at h <;> cases h <;> simp
  have hev2 : ev2 = [] ∨
      ev2 = [.criticCall (llm.matcherRefine llm.matcherFirst h1)] := by
    rcases ontologyGate_cases llm (llm.matcherRefine llm.matcherFirst h1) ga gb with
      ⟨-, h⟩ | ⟨-, h⟩ <;> rw [hG2] at h <;> cases h <;> simp
  unfold run_pipeline
  dsimp only
  rw [hG1]
  dsimp only
  rw [hG2]
  dsimp only
  by_cases hrc : (h1.is_consistent = false ∨ h1.confidence < mkRat 4 5)
  · rw [if_pos hrc, if_pos hrc, if_pos hrc]
    dsimp only
    refine ⟨?_, rfl, ?_⟩
    · rcases hev1 with h | h <;> rcases hev2 with h' | h' <;>
        simp [h, h', List.countP_cons, List.countP_append]
    · rcases hev1 with h | h <;> rcases hev2 with h' | h' <;> simp [h, h']
  · rw [if_neg hrc, if_neg hrc, if_neg hrc]
    dsimp only
    refine ⟨?_, rfl, ?_⟩
    · rcases hev1 with h | h <;> simp [h, List.countP_cons, List.countP_append]
    · rcases hev1 with h | h <;> simp [h]

/-- C3: in both passes, the Critic is invoked exactly on mappings whose
alignment check passes.  (i) No `criticCall` event ever carries a mapping
whose check fails.  (ii) When the initial mapping's check passes, the
Critic is invoked on it and its verdict is the first hypothesis.
(iii) When the initial mapping's check fails, the first hypothesis is
built directly: inconsistent, confidence `0`, issues = the alignment
issues, with no Critic call recorded for it.  (iv) The same short-circuit
governs the refinement pass: if refinement runs and the refined mapping's
check fails, the final hypothesis is synthesized directly from its
alignment issues.  (v) Conversely, if refinement runs and the refined
mapping's check passes, the Critic is invoked on the refined mapping and
its verdict is the final hypothesis. -/
theorem run_pipeline_gate_shortcircuit (ga gb : LogicalPropertyGraph)
    (llm : PipelineLLM) :
    (∀ m : AnalogyMapping,
      PipeEvent.criticCall m ∈ (run_pipeline ga gb llm).2 →
      (check_ontology_alignment m ga gb).1 = true) ∧
    ((check_ontology_alignment llm.matcherFirst ga gb).1 = true →
      PipeEvent.criticCall llm.matcherFirst ∈ (run_pipeline ga gb llm).2 ∧
      (ontologyGate llm llm.matcherFirst ga gb).1 = llm.criticOf llm.matcherFirst) ∧
    ((check_ontology_alignment llm.matcherFirst ga gb).1 = false →
      (ontologyGate llm llm.matcherFirst ga gb).1 =
        { mapping := llm.matcherFirst, is_consistent := false,
          issues := (check_ontology_alignment llm.matcherFirst ga gb).2,
          confidence := 0 }) ∧
    (((ontologyGate llm llm.matcherFirst ga gb).1.is_consistent = false ∨
       (ontologyGate llm llm.matcherFirst ga gb).1.confidence < mkRat 4 5) →
      (check_ontology_alignment
          (llm.matcherRefine llm.matcherFirst (ontologyGate llm llm.matcherFirst ga gb).1)
          ga gb).1 = false →
      (run_pipeline ga gb llm).1 =
        { mapping := llm.matcherRefine llm.matcherFirst
            (ontologyGate llm llm.matcherFirst ga gb).1,
          is_consistent := false,
          issues := (check_ontology_alignment
            (llm.matcherRefine llm.matcherFirst (ontologyGate llm llm.matcherFirst ga gb).1)
            ga gb).2,
          confidence := 0 }) ∧
    (((ontologyGate llm llm.matcherFirst ga gb).1.is_consistent = false ∨
       (ontologyGate llm llm.matcherFirst ga gb).1.confidence < mkRat 4 5) →
      (check_ontology_alignment
          (llm.matcherRefine llm.matcherFirst (ontologyGate llm llm.matcherFirst ga gb).1)
          ga gb).1 = true →
      PipeEvent.criticCall
          (llm.matcherRefine llm.matcherFirst (ontologyGate llm llm.matcherFirst ga gb).1) ∈
        (run_pipeline ga gb llm).2 ∧
      (run_pipeline ga gb llm).1 =
        llm.criticOf (llm.matcherRefine llm.matcherFirst
          (ontologyGate llm llm.matcherFirst ga gb).1)) := by
  rcases hG1 : ontologyGate llm llm.matcherFirst ga gb with ⟨h1, ev1⟩
  rcases hG2 : ontologyGate llm (llm.matcherRefine llm.matcherFirst h1) ga gb with ⟨h2, ev2⟩
  have hrun : run_pipeline ga gb llm =
      (if h1.is_consistent = false ∨ h1.confidence < mkRat 4 5 then
        (h2, PipeEvent.matcherCall false llm.matcherFirst :: ev1 ++
          (PipeEvent.matcherCall true (llm.matcherRefine llm.matcherFirst h1) :: ev2) ++
          [PipeEvent.architectCall h2])
      else
        (h1, PipeEvent.matcherCall false llm.matcherFirst :: ev1 ++ [] ++
          [PipeEvent.architectCall h1])) := by
    unfold run_pipeline
    dsimp only
    rw [hG1]
    dsimp only
    rw [hG2]
    dsimp only
    by_cases hrc : (h1.is_consistent = false ∨ h1.confidence < mkRat 4 5)
    · rw [if_pos hrc, if_pos hrc]
    · rw [if_neg hrc, if_neg hrc]
  have hcase1 := ontologyGate_cases llm llm.matcherFirst ga gb
  rw [hG1] at hcase1
  have hcase2 := ontologyGate_cases llm (llm.matcherRefine llm.matcherFirst h1) ga gb
  rw [hG2] at hcase2
  refine ⟨?_, ?_, ?_, ?_, ?_⟩
  · -- (i) criticCall events only for mappings whose check passes
    intro m hm
    rw [hrun] at hm
    have hmem : PipeEvent.criticCall m ∈ ev1 ∨
        PipeEvent.criticCall m ∈ ev2 := by
      by_cases hrc : (h1.is_consistent = false ∨ h1.confidence < mkRat 4 5)
      · rw [if_pos hrc] at hm
        rcases List.mem_cons.mp hm with h | h
        · exact absurd h (by simp)
        rcases List.mem_append.mp h with h | h
        · rcases List.mem_append.mp h with h | h
          · exact Or.inl h
          · rcases List.mem_cons.mp h with h | h
            · exact absurd h (by simp)
            · exact Or.inr h
        · rw [List.mem_singleton] at h
          exact absurd h (by simp)
      · rw [if_neg hrc] at hm
        rcases List.mem_cons.mp hm with h | h
        · exact absurd h (by simp)
        rcases List.mem_append.mp h with h | h
        · rcases List.mem_append.mp h with h | h
          · exact Or.inl h
          · exact absurd h (List.not_mem_nil _)
        · rw [List.mem_singleton] at h
          exact absurd h (by simp)
    rcases hmem with hmem | hmem
    · rcases hcase1 with ⟨hchk, hgate⟩ | ⟨hchk, hgate⟩ <;>
        injection hgate with hh hev <;> subst hev
      · rw [List.mem_singleton] at hmem
        injection hmem with hmm
        subst hmm
        exact hchk
      · cases hmem
    · rcases hcase2 with ⟨hchk, hgate⟩ | ⟨hchk, hgate⟩ <;>
        injection hgate with hh hev <;> subst hev
      · rw [List.mem_singleton] at hmem
        injection hmem with hmm
        subst hmm
        exact hchk
      · cases hmem
  · -- (ii) check passes: critic invoked on the first mapping
    intro hchk
    rcases hcase1 with ⟨-, hgate⟩ | ⟨hfalse, -⟩
    · injection hgate with hh hev
      subst hev
      constructor
      · rw [hrun]
        by_cases hrc : (h1.is_consistent = false ∨ h1.confidence < mkRat 4 5)
        · rw [if_pos hrc]
          simp
        · rw [if_neg hrc]
          simp
      · exact hh
    · rw [hchk] at hfalse
      cases hfalse
  · -- (iii) check fails: the first hypothesis is synthesized directly
    intro hchk
    rcases hcase1 with ⟨htrue, -⟩ | ⟨-, hgate⟩
    · rw [hchk] at htrue
      cases htrue
    · injection hgate with hh hev
  · -- (iv) refinement pass short-circuit
    intro hrc hchk
    dsimp only at hrc hchk
    rw [hrun, if_pos hrc]
    rcases hcase2 with ⟨htrue, -⟩ | ⟨-, hgate⟩
    · rw [hchk] at htrue
      cases htrue
    · injection hgate with hh hev
  · -- (v) refinement pass: check passes → critic invoked on the refined mapping
    intro hrc hchk
    dsimp only at hrc hchk ⊢
    rcases hcase2 with ⟨-, hgate⟩ | ⟨hfalse, -⟩
    · cases hgate
      constructor
      · rw [hrun, if_pos hrc]
        simp
      · rw [hrun, if_pos hrc]
    · rw [hchk] at hfalse
      cases hfalse

/-- Witness for C3: on the unit tests' graphs, the aligned mapping's check
passes and the Critic is reached; the mismatched mapping's check fails and
the hypothesis is synthesized directly from the alignment issues — in the
first pass and, with an oracle whose refinement is still mismatched, in
the refinement pass as well; and with an oracle whose refinement is the
aligned mapping, the refinement pass reaches the Critic on it. -/
theorem run_pipeline_gate_shortcircuit_witness :
    (check_ontology_alignment sampleAlignedMapping sampleGraphA sampleGraphB).1 = true ∧
    PipeEvent.criticCall sampleAlignedMapping ∈
      (run_pipeline sampleGraphA sampleGraphB sampleLLM2).2 ∧
    (check_ontology_alignment sampleMismatchMapping sampleGraphA sampleGraphB).1 = false ∧
    (ontologyGate sampleLLM sampleLLM.matcherFirst sampleGraphA sampleGraphB).1 =
      { mapping := sampleMismatchMapping, is_consistent := false,
        issues := (check_ontology_alignment sampleMismatchMapping
          sampleGraphA sampleGraphB).2,
        confidence := 0 } ∧
    (run_pipeline sampleGraphA sampleGraphB sampleLLMBad).1 =
      { mapping := sampleMismatchMapping, is_consistent := false,
        issues := (check_ontology_alignment sampleMismatchMapping
          sampleGraphA sampleGraphB).2,
        confidence := 0 } ∧
    PipeEvent.criticCall sampleAlignedMapping ∈
      (run_pipeline sampleGraphA sampleGraphB sampleLLM).2 ∧
    (run_pipeline sampleGraphA sampleGraphB sampleLLM).1 =
      sampleLLM.criticOf sampleAlignedMapping :=
  ⟨by decide,
   ((run_pipeline_gate_shortcircuit sampleGraphA sampleGraphB sampleLLM2).2.1
      (by decide)).1,
   by decide,
   (run_pipeline_gate_shortcircuit sampleGraphA sampleGraphB sampleLLM).2.2.1
      (by decide),
   (run_pipeline_gate_shortcircuit sampleGraphA sampleGraphB sampleLLMBad).2.2.2.1
      (by decide) (by decide),
   ((run_pipeline_gate_shortcircuit sampleGraphA sampleGraphB sampleLLM).2.2.2.2
      (by decide) (by decide)).1,
   ((run_pipeline_gate_shortcircuit sampleGraphA sampleGraphB sampleLLM).2.2.2.2
      (by decide) (by decide)).2⟩
